import Mathlib

/-!
# Verification of the pci-bci scenario engine

Shallow embedding of the scenario simulation core of the `pci-bci` repository:
the mass-edit engine (`src/scenarios/apply_mass_edits.py`), the network-edit
engine (`src/scenarios/apply_network_edits.py`), topography edge weighting
(`src/network/topo_weighted.py`), the travel-time engine
(`src/network/dijkstra.py`), the accessibility indices
(`src/indices/hansen.py`, `src/indices/pci.py`, `src/indices/bci.py`) and the
cache-key derivation of the orchestrator (`src/scenarios/runner.py`,
`src/scenarios/scenario.py`).

Modelling conventions:
* pandas Series are association lists `List (String × α)` keyed by hex id;
  label lookup is `alookup`, `reindex(hex_ids).fillna(0)` is `reindex_fill0`.
* Python floats are exact numbers: `ℚ` for the purely structural stages
  (mass edits, network edits, topography weighting, travel times, cache keys)
  and `ℝ` for the accessibility engine, where `exp` forces real arithmetic.
  Float rounding and NaN are not modelled; a missing label plays the role of
  NaN where the source produces one (`Series.get` defaults).
* Exceptions (`ValueError`, `KeyError`, `AttributeError`) are `Except String`.
-/

set_option autoImplicit false

/-- Association-list lookup keyed by strings: models pandas label lookup
(`s.get(k)`, `s.loc[k]`) and Python `dict` access.  Returns the first binding
of the key, `none` when the key is absent. -/
def alookup {α : Type} : List (String × α) → String → Option α
  | [], _ => none
  | p :: ps, k => if p.1 = k then some p.2 else alookup ps k

/-- `s.reindex(hex_ids).fillna(fill)`: one entry per requested label, in the
requested order, defaulting missing labels. -/
def reindex_fill {α : Type} (s : List (String × α)) (hexIds : List String) (fill : α) :
    List (String × α) :=
  hexIds.map (fun h => (h, (alookup s h).getD fill))

/-- Sum of a Series' values (`s.sum()`). -/
def seriesSum {α : Type} [AddCommMonoid α] (s : List (String × α)) : α :=
  (s.map Prod.snd).sum

/-- `min` of a list of values, `none` on the empty list (where pandas yields NaN). -/
def listMin {α : Type} [LinearOrder α] : List α → Option α
  | [] => none
  | x :: xs => some (xs.foldl min x)

/-- `max` of a list of values, `none` on the empty list (where pandas yields NaN). -/
def listMax {α : Type} [LinearOrder α] : List α → Option α
  | [] => none
  | x :: xs => some (xs.foldl max x)

/-- Python dict assignment `d[k] = v`: updates the binding in place when the
key exists, appends a new binding otherwise (insertion-order semantics). -/
def dictSet {α : Type} (d : List (String × α)) (k : String) (v : α) : List (String × α) :=
  if (alookup d k).isSome then d.map (fun p => if p.1 = k then (k, v) else p)
  else d ++ [(k, v)]

/-! ## Mass layers and mass edits (`src/mass/layers.py`, `src/scenarios/scenario.py`) -/

/-- `MassLayer` from `src/mass/layers.py`: a hex-indexed mass Series with a
name and metadata. -/
structure MassLayer where
  name : String
  raw : List (String × ℚ)
  meta : List (String × String)
  deriving DecidableEq, Repr

/-- `MassLayer.reindex_to_hexes`: reindex `raw` to `hex_ids`, filling missing
hexes with 0 (`src/mass/layers.py` line 18). -/
def MassLayer.reindex_to_hexes (l : MassLayer) (hexIds : List String) : MassLayer :=
  { name := l.name, raw := reindex_fill l.raw hexIds 0, meta := l.meta }

/-- `MassLayer.copy`: a value copy; the identity in this pure model. -/
def MassLayer.copy (l : MassLayer) : MassLayer := l

/-- The closed union of mass-edit variants from `src/scenarios/scenario.py`
(`RedistributeLayerToHexes`, `RemoveLayerFromComposite`); the `kind` tags are
determined by the constructor and not repeated here. -/
inductive MassEdit where
  | redistributeLayerToHexes (layer : String) (targetHexIds : List String) (method : String)
  | removeLayerFromComposite (layer : String)
  deriving DecidableEq, Repr

/-- `_redistribute_series_to_targets` from `src/scenarios/apply_mass_edits.py`
(lines 12-49).  `out.loc[targets] = x` with a scalar sets every *label*
occurring in `targets` once; with the Series value of the proportional branch
it assigns by label (the indexes agree).  Both are rendered as a
label-membership test against `targets`. -/
def redistribute_series_to_targets (s : List (String × ℚ)) (hexIds : List String)
    (targetHexIds : List String) (method : String) : Except String (List (String × ℚ)) :=
  let s' := reindex_fill s hexIds 0
  let total := seriesSum s'
  if total = 0 then .ok (s'.map (fun p => (p.1, 0)))
  else
    let targets := targetHexIds.filter (fun h => h ∈ hexIds)
    if targets.isEmpty then .error "No target_hex_ids are in the provided hex_ids index."
    else if method = "equal" then
      let share := total / (targets.length : ℚ)
      .ok (hexIds.map (fun h => (h, if h ∈ targets then share else 0)))
    else if method = "proportional_to_existing" then
      let base := targets.map (fun t => max ((alookup s' t).getD 0) 0)
      let denom := base.sum
      if denom ≤ 0 then
        let share := total / (targets.length : ℚ)
        .ok (hexIds.map (fun h => (h, if h ∈ targets then share else 0)))
      else
        .ok (hexIds.map (fun h =>
          (h, if h ∈ targets then max ((alookup s' h).getD 0) 0 / denom * total else 0)))
    else .error ("Unknown redistribution method: " ++ method)

/-- `apply_mass_edits` from `src/scenarios/apply_mass_edits.py` (lines 51-92):
copy + reindex every layer, then fold the edits in list order, failing on a
missing layer (`KeyError`) or an invalid redistribution (`ValueError`).  The
`Unsupported MassEdit type` branch is unreachable: `MassEdit` is closed. -/
def apply_mass_edits (layers : List (String × MassLayer)) (weights : List (String × ℚ))
    (hexIds : List String) (massEdits : List MassEdit) :
    Except String (List (String × MassLayer) × List (String × ℚ)) :=
  let newLayers := layers.map (fun p => (p.1, (p.2.copy).reindex_to_hexes hexIds))
  let newWeights := weights
  massEdits.foldlM (fun st edit =>
    match edit with
    | .redistributeLayerToHexes layer targetHexIds method =>
      match alookup st.1 layer with
      | none => .error ("KeyError: layer not found in layers: " ++ layer)
      | some ml =>
        match redistribute_series_to_targets ml.raw hexIds targetHexIds method with
        | .error e => .error e
        | .ok redistributed =>
          .ok (dictSet st.1 layer { name := ml.name, raw := redistributed, meta := ml.meta },
               st.2)
    | .removeLayerFromComposite layer => .ok (st.1, dictSet st.2 layer 0))
    (newLayers, newWeights)


deriving instance DecidableEq for Except


/-! ## Network model and network edits (`src/scenarios/scenario.py`,
`src/scenarios/apply_network_edits.py`) -/

/-- Dynamic attribute values carried by graph edges (`mode`, `route_id`,
`name`, ...).  `pynone` is Python `None`, which `data.get(k)` also returns for
a missing key. -/
inductive PyVal where
  | str (s : String)
  | num (q : ℚ)
  | pynone
  deriving DecidableEq, Repr

/-- A value of a `SpeedFactorByAttribute.where` filter: either a scalar or a
list/tuple/set of admissible values. -/
inductive FilterVal where
  | scalar (v : PyVal)
  | many (vs : List PyVal)
  deriving DecidableEq, Repr

/-- One edge of the `nx.MultiDiGraph`: endpoints `u`, `v`, the parallel-edge
`key`, the numeric `time_min` attribute (`none` when absent) and the remaining
classification attributes.  Node ids and keys are modelled as strings. -/
structure NetEdge where
  u : String
  v : String
  key : String
  time_min : Option ℚ
  attrs : List (String × PyVal)
  deriving DecidableEq, Repr

/-- A multigraph is its edge list; `G.copy()` is the identity in this pure
model (copy-on-edit is implicit in value semantics). -/
abbrev NetGraph := List NetEdge

/-- `G.has_edge(u, v)`. -/
def hasEdgeUV (G : NetGraph) (u v : String) : Bool :=
  G.any (fun e => e.u = u && e.v = v)

/-- `G.has_edge(u, v, k)`. -/
def hasEdgeUVK (G : NetGraph) (u v k : String) : Bool :=
  G.any (fun e => e.u = u && e.v = v && e.key = k)

/-- The closed union of network-edit variants from `src/scenarios/scenario.py`
(`CloseEdges`, `SpeedFactorByAttribute`, `RemoveTransitLine`).  A `CloseEdges`
edge tuple is a list of node ids (optionally followed by a parallel-edge key);
its arity is checked by the engine. -/
inductive NetworkEdit where
  | closeEdges (edges : List (List String))
  | speedFactorByAttribute (whereFilter : List (String × FilterVal)) (factor : ℚ)
  | removeTransitLine (routeId : String)
  deriving DecidableEq, Repr

/-- `_edge_matches_where` from `src/scenarios/apply_network_edits.py` (lines
12-26): every filter key must match the edge attribute, by equality for a
scalar and by membership for a list/tuple/set; a missing attribute is `None`. -/
def edge_matches_where (attrs : List (String × PyVal)) (whereFilter : List (String × FilterVal)) :
    Bool :=
  whereFilter.all (fun kv =>
    match kv.2 with
    | .many vs => decide ((alookup attrs kv.1).getD .pynone ∈ vs)
    | .scalar v => decide ((alookup attrs kv.1).getD .pynone = v))

/-- `str(x)` as applied to a `route_id` attribute value. -/
def pyStr : PyVal → String
  | .str s => s
  | .num q => toString q
  | .pynone => "None"

/-- The body of the `CloseEdges` loop (`apply_network_edits.py` lines 47-59)
for a single edge tuple: an `(u, v)` tuple stamps `time_min = close_time` on
every parallel edge from `u` to `v` when present, an `(u, v, k)` tuple on
that single edge when present; a missing edge is silently skipped; any other
arity raises `ValueError`. -/
def close_one (g : NetGraph) (t : List String) (closeTime : ℚ) : Except String NetGraph :=
  match t with
  | [u, v] =>
    if hasEdgeUV g u v then
      .ok (g.map (fun e => if e.u = u && e.v = v then { e with time_min := some closeTime } else e))
    else .ok g
  | [u, v, k] =>
    if hasEdgeUVK g u v k then
      .ok (g.map (fun e =>
        if e.u = u && e.v = v && e.key = k then { e with time_min := some closeTime } else e))
    else .ok g
  | _ => .error "CloseEdges edge tuple must be (u,v) or (u,v,k)."

/-- The `CloseEdges` loop over all edge tuples of one edit, failing at the
first malformed tuple. -/
def close_edges_fold (G : NetGraph) (tuples : List (List String)) (closeTime : ℚ) :
    Except String NetGraph :=
  tuples.foldlM (fun g t => close_one g t closeTime) G

/-- `apply_network_edits` from `src/scenarios/apply_network_edits.py` (lines
28-81): fold the edits in list order over a copy of the base graph.  The
`Unsupported NetworkEdit type` branch is unreachable: `NetworkEdit` is
closed. -/
def apply_network_edits (G_base : NetGraph) (networkEdits : List NetworkEdit)
    (closeTime : ℚ := 1000000000) : Except String NetGraph :=
  networkEdits.foldlM (fun g edit =>
    match edit with
    | .closeEdges tuples => close_edges_fold g tuples closeTime
    | .speedFactorByAttribute whereFilter factor =>
      .ok (g.map (fun e =>
        if edge_matches_where e.attrs whereFilter then
          match e.time_min with
          | some t => { e with time_min := some (t * factor) }
          | none => e
        else e))
    | .removeTransitLine routeId =>
      .ok (g.map (fun e =>
        if (alookup e.attrs "mode").getD .pynone = .str "transit"
            && pyStr ((alookup e.attrs "route_id").getD .pynone) = routeId then
          { e with time_min := some closeTime }
        else e)))
    G_base

/-! ## Topography weighting (`src/network/topo_weighted.py`) -/

/-- `normalize_01` from `src/network/topo_weighted.py` (lines 5-10): min-max
normalize a Series to `[0, 1]`; when all values coincide (or the Series is
empty) the result is all zeros over the same index. -/
def normalize_01 (s : List (String × ℚ)) : List (String × ℚ) :=
  match listMin (s.map Prod.snd), listMax (s.map Prod.snd) with
  | some mn, some mx =>
    if mn < mx then s.map (fun p => (p.1, (p.2 - mn) / (mx - mn)))
    else s.map (fun p => (p.1, 0))
  | _, _ => s.map (fun p => (p.1, 0))

/-- `build_topo_weighted_graph` from `src/network/topo_weighted.py` (lines
12-48): copy the graph and scale each edge carrying a `time_min` by
`1 + gamma * 0.5 * (mu + mv)`, where `mu`/`mv` look the endpoint's hex up in
the normalized topography (0 for an unmapped node or a hex absent from the
topography index).  `topo_edge_update` is the per-edge body of the loop; the
`topo01` Series is computed once in the source and is a pure value here. -/
def topo_edge_update (topo_hex : List (String × ℚ)) (node_to_hex : List (String × String))
    (gamma : ℚ) (e : NetEdge) : NetEdge :=
  match e.time_min with
  | none => e
  | some base_t =>
    let mu := match alookup node_to_hex e.u with
      | none => 0
      | some hu => (alookup (normalize_01 topo_hex) hu).getD 0
    let mv := match alookup node_to_hex e.v with
      | none => 0
      | some hv => (alookup (normalize_01 topo_hex) hv).getD 0
    { e with time_min := some (base_t * (1 + gamma * (1/2) * (mu + mv))) }

def build_topo_weighted_graph (G_base : NetGraph) (topo_hex : List (String × ℚ))
    (node_to_hex : List (String × String)) (gamma : ℚ) : NetGraph :=
  G_base.map (topo_edge_update topo_hex node_to_hex gamma)

/-- Modelled from the spec (claim C8 wording): the min-max-normalized
topography score of a node's hex, `0` when the node is not mapped to a hex.
Stated directly from the min and max of the topography Series; when all
scores coincide the normalized score is 0 (the code's `normalize_01`
fallback), and a hex missing from the topography index also scores 0. -/
def spec_node_score (topo_hex : List (String × ℚ)) (node_to_hex : List (String × String))
    (node : String) : ℚ :=
  match alookup node_to_hex node with
  | none => 0
  | some h =>
    match alookup topo_hex h, listMin (topo_hex.map Prod.snd), listMax (topo_hex.map Prod.snd) with
    | some v, some mn, some mx => if mn < mx then (v - mn) / (mx - mn) else 0
    | _, _, _ => 0

/-! ## Travel-time engine (`src/network/dijkstra.py`) -/

/-- Insertion-order deduplication: the key order of a Python dict built by
repeated `setdefault`/insert, i.e. each element at its first occurrence. -/
def first_occurrences (l : List String) : List String :=
  l.foldl (fun acc x => if x ∈ acc then acc else acc ++ [x]) []

/-- The distinct representative source nodes of `compute_hex_travel_times`:
the keys of `node_to_hexes`, i.e. the values of `hex_to_node` in first-seen
order.  One shortest-path search is run per element of this list. -/
def dijkstra_sources (hex_to_node : List (String × String)) : List String :=
  first_occurrences (hex_to_node.map Prod.snd)

/-- The rows contributed by one source node (the body of the source loop,
`src/network/dijkstra.py` lines 33-51): nothing when the search raises,
otherwise one identical row for every hex assigned to the source node, with
one entry per destination hex whose representative node the search reached. -/
def tt_chunk (dijkstra : String → Option (List (String × ℚ)))
    (hex_to_node : List (String × String)) (source_node : String) :
    List (String × List (String × ℚ)) :=
  match dijkstra source_node with
  | none => []
  | some lengths =>
    (hex_to_node.filter (fun p => p.2 = source_node)).map (fun p =>
      (p.1, hex_to_node.filterMap (fun q => (alookup lengths q.2).map (fun t => (q.1, t)))))

/-- `compute_hex_travel_times` from `src/network/dijkstra.py` (lines 5-53).
`dijkstra` abstracts the external call
`nx.single_source_dijkstra_path_length(G, source, cutoff=max_time, weight)`:
it returns the node-distance table of one search, or `none` when the call
raises (missing or disconnected source), in which case the source contributes
no rows. -/
def compute_hex_travel_times (dijkstra : String → Option (List (String × ℚ)))
    (hex_to_node : List (String × String)) : List (String × List (String × ℚ)) :=
  (dijkstra_sources hex_to_node).flatMap (tt_chunk dijkstra hex_to_node)

/-! ## Scenario value object and cache keys (`src/scenarios/scenario.py`,
`src/scenarios/runner.py`, `src/scenarios/artifacts.py`) -/

/-- The optional topography-rules mapping read by
`build_composite_topography` (`src/mass/topography.py` lines 48-52): a
`normalize` mode, optional clip bounds and a `log1p` flag. -/
structure TopoRules where
  normalize : String
  clip_min : Option ℚ
  clip_max : Option ℚ
  log1p : Bool
  deriving DecidableEq, Repr

/-- The frozen `Scenario` dataclass from `src/scenarios/scenario.py` (lines
94-119), with exactly the fields the dataclass declares.  Note there is no
`topo_rules` field. -/
structure Scenario where
  name : String
  description : String
  mass_edits : List MassEdit
  network_edits : List NetworkEdit
  weights : List (String × ℚ)
  betas : List (String × ℚ)
  gamma : ℚ
  active_lambda : ℚ
  mode_cost : ℚ
  park_mask_enabled : Bool
  park_mask_threshold : ℚ
  interface_lambda : ℚ
  deriving DecidableEq, Repr

/-- The dynamic value of one `Scenario` attribute, as Python attribute access
would yield it. -/
inductive ScenarioAttr where
  | str (s : String)
  | num (q : ℚ)
  | bool (b : Bool)
  | massEdits (es : List MassEdit)
  | networkEdits (es : List NetworkEdit)
  | strNumMap (m : List (String × ℚ))
  | topoRules (tr : TopoRules)
  deriving DecidableEq, Repr

/-- Python attribute access `getattr(scenario, attr)` on the `Scenario`
dataclass: defined exactly for the fields the dataclass declares
(`src/scenarios/scenario.py` lines 101-119), `none` (= `AttributeError`)
otherwise. -/
def Scenario.pyGetattr (s : Scenario) (attr : String) : Option ScenarioAttr :=
  if attr = "name" then some (.str s.name)
  else if attr = "description" then some (.str s.description)
  else if attr = "mass_edits" then some (.massEdits s.mass_edits)
  else if attr = "network_edits" then some (.networkEdits s.network_edits)
  else if attr = "weights" then some (.strNumMap s.weights)
  else if attr = "betas" then some (.strNumMap s.betas)
  else if attr = "gamma" then some (.num s.gamma)
  else if attr = "active_lambda" then some (.num s.active_lambda)
  else if attr = "mode_cost" then some (.num s.mode_cost)
  else if attr = "park_mask_enabled" then some (.bool s.park_mask_enabled)
  else if attr = "park_mask_threshold" then some (.num s.park_mask_threshold)
  else if attr = "interface_lambda" then some (.num s.interface_lambda)
  else none

/-- Structural cache-key payloads of `src/scenarios/runner.py`.  `stable_hash`
(`src/scenarios/artifacts.py`: md5 of the key-sorted JSON dump) is modelled as
an injective function of the payload, so a key *is* its canonical payload:
equal payloads give equal keys and distinct payloads give distinct keys
(hash collisions are idealized away).  One constructor per distinct payload
shape, with the shape's fixed `kind` tags folded into the constructor. -/
inductive KeyPayload where
  | massKeyP (mass_edits : List MassEdit) (weights : List (String × ℚ)) (topo_rules : TopoRules)
  | layersAppliedP (mass_key : KeyPayload)
  | topoPciP (mass_key : KeyPayload)
  | graphKeyP (network_edits : List NetworkEdit) (gamma : ℚ) (topo_key : KeyPayload)
  | travelTimesP (graph_key : KeyPayload) (max_time : ℚ)
  deriving DecidableEq, Repr

/-- `ScenarioRunner._mass_key` (`src/scenarios/runner.py` lines 60-67): build
the mass-stage payload from `scenario.mass_edits`, `scenario.weights` and
`scenario.topo_rules`, each read by attribute access. -/
def mass_key (s : Scenario) : Except String KeyPayload :=
  match s.pyGetattr "mass_edits" with
  | none => .error "AttributeError: Scenario object has no attribute mass_edits"
  | some a1 =>
    match s.pyGetattr "weights" with
    | none => .error "AttributeError: Scenario object has no attribute weights"
    | some a2 =>
      match s.pyGetattr "topo_rules" with
      | none => .error "AttributeError: Scenario object has no attribute topo_rules"
      | some a3 =>
        match a1, a2, a3 with
        | .massEdits me, .strNumMap w, .topoRules tr => .ok (.massKeyP me w tr)
        | _, _, _ => .error "TypeError"

/-- `ScenarioRunner._graph_key` (`src/scenarios/runner.py` lines 69-76): the
graph-stage payload is network edits + gamma + the topography key. -/
def graph_key (s : Scenario) (topoKey : KeyPayload) : KeyPayload :=
  .graphKeyP s.network_edits s.gamma topoKey

/-- `ScenarioRunner._travel_times_key` (`src/scenarios/runner.py` lines
78-79). -/
def travel_times_key (graphKey : KeyPayload) (max_time : ℚ) : KeyPayload :=
  .travelTimesP graphKey max_time

/-- The mass-key payload `_mass_key` would produce for `s` if the
`topo_rules` attribute held `tr` (the dataclass does not define it; this is
the key-derivation structure of runner.py lines 60-67 with the read of
`scenario.topo_rules` made an explicit input). -/
def mass_key_payload (s : Scenario) (tr : TopoRules) : KeyPayload :=
  .massKeyP s.mass_edits s.weights tr

/-- `topo_key` as derived at `src/scenarios/runner.py` line 117:
`stable_hash({"mass_key": mass_key, "kind": "topo_pci"})`. -/
def topo_key_payload (s : Scenario) (tr : TopoRules) : KeyPayload :=
  .topoPciP (mass_key_payload s tr)

/-- The graph key the run derives at `src/scenarios/runner.py` line 144:
`_graph_key(scenario, topo_key)`. -/
def run_graph_key (s : Scenario) (tr : TopoRules) : KeyPayload :=
  graph_key s (topo_key_payload s tr)

/-- The travel-times key the run derives at `src/scenarios/runner.py` line
156. -/
def run_travel_times_key (s : Scenario) (tr : TopoRules) (max_time : ℚ) : KeyPayload :=
  travel_times_key (run_graph_key s tr) max_time

/-- Python dict merge `{**a, **b}`: keys of `a` in order with values
overridden by `b` where present, then the keys of `b` not in `a`, in order. -/
def dictMerge (a b : List (String × ℚ)) : List (String × ℚ) :=
  a.map (fun p => ((alookup b p.1).elim p (fun v => (p.1, v))))
    ++ b.filter (fun p => (alookup a p.1).isNone)

/-- The prefix of `ScenarioRunner.run` (`src/scenarios/runner.py` lines
84-115) on a cold cache, up to completion of the mass stage: derive
`_mass_key` (line 101; the first statement that touches the scenario), then
apply the mass edits (lines 108-113, with the merged weights of line 110).
The later stages (topography at line 124 — which reads
`scenario.topo_rules` again —, graph, travel times, PCI and BCI) run only
after this prefix succeeds. -/
def run_mass_stage (s : Scenario) (base_layers : List (String × MassLayer))
    (base_weights : List (String × ℚ)) (hex_ids : List String) :
    Except String (List (String × MassLayer) × List (String × ℚ)) :=
  match mass_key s with
  | .error e => .error e
  | .ok _ => apply_mass_edits base_layers (dictMerge base_weights s.weights) hex_ids s.mass_edits

/-! ## Accessibility engine (`src/indices/hansen.py`, `src/indices/bci.py`,
`src/indices/pci.py`).  Real-valued: `exp` forces `ℝ`, whose order is not
computably decidable, hence the `noncomputable` section. -/

noncomputable section

/-- `DEFAULT_MEDIAN_HOURLY_WAGE` (`src/indices/hansen.py` line 7). -/
def DEFAULT_MEDIAN_HOURLY_WAGE : ℝ := 25

/-- `income_cost_penalty_minutes` from `src/indices/hansen.py` (lines 9-27).
`annual_income = none` models a missing, NaN or otherwise non-finite value
(all of which fall back to `fallback_hourly_wage`, as does a value `≤ 0`). -/
def income_cost_penalty_minutes (annual_income : Option ℝ) (mode_cost : ℝ)
    (fallback_hourly_wage : ℝ) : ℝ :=
  if mode_cost ≤ 0 then 0
  else
    let hourly_wage :=
      match annual_income with
      | none => fallback_hourly_wage
      | some a => if a ≤ 0 then fallback_hourly_wage else max (a / 2080) 7.25
    mode_cost / hourly_wage * 60

/-- The per-origin penalty of `hansen_accessibility` (`src/indices/hansen.py`
lines 55-62): 0 unless an income Series is supplied and `mode_cost > 0`. -/
def hansen_penalty (income : Option (List (String × ℝ))) (mode_cost fallback : ℝ)
    (origin : String) : ℝ :=
  match income with
  | none => 0
  | some inc =>
    if 0 < mode_cost then income_cost_penalty_minutes (alookup inc origin) mode_cost fallback
    else 0

/-- The body of the origin loop of `hansen_accessibility`
(`src/indices/hansen.py` lines 50-72): a missing or empty travel-time row
leaves the origin at 0 (`if not tt: continue`); otherwise each destination in
the row with strictly positive mass contributes
`mass * exp(-beta * (t + penalty))` and destinations with mass `≤ 0` are
skipped (`if m <= 0.0: continue`). -/
def hansen_row (travel_times : List (String × List (String × ℝ)))
    (dest_mass : List (String × ℝ)) (beta : ℝ) (income : Option (List (String × ℝ)))
    (mode_cost fallback : ℝ) (origin : String) : ℝ :=
  match alookup travel_times origin with
  | none => 0
  | some tt =>
    if tt.isEmpty then 0
    else
      let penalty := hansen_penalty income mode_cost fallback origin
      (tt.map (fun dt =>
        let m := (alookup dest_mass dt.1).getD 0
        if m ≤ 0 then 0 else m * Real.exp (-beta * (dt.2 + penalty)))).sum

/-- `hansen_accessibility` from `src/indices/hansen.py` (lines 29-74): the
output Series is indexed by `dest_mass.index` (`hex_ids`), one origin-loop
value per hex.  (`dest_mass.reindex(hex_ids).fillna(0)` with
`hex_ids = dest_mass.index` is the identity here.) -/
def hansen_accessibility (travel_times : List (String × List (String × ℝ)))
    (dest_mass : List (String × ℝ)) (beta : ℝ)
    (income : Option (List (String × ℝ)) := none) (mode_cost : ℝ := 0)
    (fallback_hourly_wage : ℝ := DEFAULT_MEDIAN_HOURLY_WAGE) : List (String × ℝ) :=
  (dest_mass.map Prod.fst).map (fun origin =>
    (origin, hansen_row travel_times dest_mass beta income mode_cost fallback_hourly_wage origin))

/-- Modelled from the spec (claim C4 wording): the accessibility sum with
*every* destination present in the travel-time row contributing
`mass_j * exp(-beta * (t_ij + penalty_i))`, with no positivity filter. -/
def hansen_claimed_row_sum (row : List (String × ℝ)) (dest_mass : List (String × ℝ))
    (beta penalty : ℝ) : ℝ :=
  (row.map (fun dt => ((alookup dest_mass dt.1).getD 0) * Real.exp (-beta * (dt.2 + penalty)))).sum

/-- `normalize_minmax` from `src/indices/hansen.py` (lines 76-81): min-max
normalize to `[0, scale]`; when all values coincide (or the Series is empty)
every entry becomes `scale / 2`. -/
def normalize_minmax (s : List (String × ℝ)) (scale : ℝ := 100) : List (String × ℝ) :=
  match listMin (s.map Prod.snd), listMax (s.map Prod.snd) with
  | some mn, some mx =>
    if mn < mx then s.map (fun p => (p.1, (p.2 - mn) / (mx - mn) * scale))
    else s.map (fun p => (p.1, scale / 2))
  | _, _ => s.map (fun p => (p.1, scale / 2))

/-- `normalize_div_max` from `src/indices/hansen.py` (lines 83-92):
`s / max(s)` when the max is positive, all zeros otherwise. -/
def normalize_div_max (s : List (String × ℝ)) : List (String × ℝ) :=
  match listMax (s.map Prod.snd) with
  | some mx => if 0 < mx then s.map (fun p => (p.1, p.2 / mx)) else s.map (fun p => (p.1, 0))
  | none => s.map (fun p => (p.1, 0))

/-- pandas `Series.rank(pct=True)`: the average rank of each value (ties
averaged, ascending) divided by the number of entries. -/
def rank_pct (s : List (String × ℝ)) : List (String × ℝ) :=
  s.map (fun p => (p.1,
    (((s.filter (fun q => q.2 < p.2)).length : ℝ)
        + (((s.filter (fun q => q.2 = p.2)).length : ℝ) + 1) / 2)
      / (s.length : ℝ)))

/-- Pointwise arithmetic on two identically-indexed Series; pandas alignment
of equal indexes is positional. -/
def zipWithSeries (f : ℝ → ℝ → ℝ) (a b : List (String × ℝ)) : List (String × ℝ) :=
  (a.zip b).map (fun pq => (pq.1.1, f pq.1.2 pq.2.2))

/-- `compute_bci_masses` from `src/indices/bci.py` (lines 7-21): market mass
`P * Y` and labour mass `L`, all reindexed to `hex_ids` with missing filled
as 0. -/
def compute_bci_masses (population income labour : List (String × ℝ)) (hex_ids : List String) :
    List (String × ℝ) × List (String × ℝ) :=
  (hex_ids.map (fun h =>
      (h, ((alookup population h).getD 0) * ((alookup income h).getD 0))),
   hex_ids.map (fun h => (h, (alookup labour h).getD 0)))

/-- The `combine` literal of `compute_bci`
(`Literal["weight_free", "weighted_sum"]`). -/
inductive CombineMode where
  | weight_free
  | weighted_sum
  deriving DecidableEq, Repr

/-- The result dict of `compute_bci`. -/
structure BciResult where
  A_market : List (String × ℝ)
  A_labour : List (String × ℝ)
  BCI : List (String × ℝ)

/-- `compute_bci` from `src/indices/bci.py` (lines 23-83). -/
def compute_bci (travel_times : List (String × List (String × ℝ)))
    (population income labour : List (String × ℝ)) (betas : List (String × ℝ))
    (weights : Option (List (String × ℝ)) := none)
    (combine : CombineMode := .weight_free)
    (interface : Option (List (String × ℝ)) := none)
    (interface_lambda : ℝ := 0) : BciResult :=
  let hex_ids := population.map Prod.fst
  let masses := compute_bci_masses population income labour hex_ids
  let beta_market := (alookup betas "market").getD 0.08
  let beta_labour := (alookup betas "labour").getD 0.08
  let A_market := hansen_accessibility travel_times masses.1 beta_market
  let A_labour := hansen_accessibility travel_times masses.2 beta_labour
  let bci_raw :=
    match combine with
    | .weight_free =>
      zipWithSeries (fun a b => a + b) (normalize_div_max A_market) (normalize_div_max A_labour)
    | .weighted_sum =>
      let w := weights.getD []
      let w_m := (alookup w "market").getD 1
      let w_l := (alookup w "labour").getD 1
      zipWithSeries (fun a b => w_m * a + w_l * b) A_market A_labour
  let bci_raw :=
    match interface with
    | none => bci_raw
    | some iface =>
      if interface_lambda = 0 then bci_raw
      else
        let iface01 := rank_pct (hex_ids.map (fun h => (h, (alookup iface h).getD 0)))
        zipWithSeries (fun b r => b * (1 + interface_lambda * r)) bci_raw iface01
  { A_market := A_market, A_labour := A_labour, BCI := normalize_minmax bci_raw 100 }

/-- `compute_active_street_score` from `src/indices/pci.py` (lines 9-23): the
percentile rank of the sum of the designated active layers (missing layers
contribute 0). -/
def compute_active_street_score (hex_ids : List String)
    (layers : List (String × List (String × ℝ)))
    (active_layers : List String := ["food_retail", "community"]) : List (String × ℝ) :=
  rank_pct (hex_ids.map (fun h =>
    (h, (active_layers.map (fun k =>
      match alookup layers k with
      | none => 0
      | some raw => (alookup raw h).getD 0)).sum)))

/-- `compute_park_coverage` from `src/indices/pci.py` (lines 25-36):
`park_area / hex_area`, where a missing or zero hex area yields 0 (NaN
division followed by `fillna(0)`). -/
def compute_park_coverage (hex_area_m2 : List (String × ℝ)) (parks_area_m2 : List (String × ℝ))
    (hex_ids : List String) : List (String × ℝ) :=
  hex_ids.map (fun h =>
    (h, match alookup hex_area_m2 h with
        | none => 0
        | some a => if a = 0 then 0 else ((alookup parks_area_m2 h).getD 0) / a))

/-- The park-mask step of `compute_pci` (`src/indices/pci.py` lines 84-99):
when enabled and a `parks` layer exists, interpret it as a coverage ratio if
its max is `≤ 1.5` and as raw area (divided by hex area, required) otherwise,
then replace entries whose coverage exceeds the threshold by NaN (`none`);
otherwise every entry stays defined.  `park_coverage_result` is the
coverage-derivation part (pci.py lines 87-96). -/
def park_coverage_result (parksRaw : List (String × ℝ)) (hex_ids : List String)
    (hex_area_m2 : Option (List (String × ℝ))) : Except String (List (String × ℝ)) :=
  let parks := hex_ids.map (fun h => (h, (alookup parksRaw h).getD 0))
  if (match listMax (parks.map Prod.snd) with
      | some mx => decide (mx ≤ 1.5)
      | none => false) then .ok parks
  else
    match hex_area_m2 with
    | none => .error "hex_area_m2 must be provided when parks layer is area (m^2)."
    | some area => .ok (compute_park_coverage area parksRaw hex_ids)

def apply_park_mask (pci : List (String × ℝ)) (hex_ids : List String)
    (layers : List (String × List (String × ℝ))) (park_mask_enabled : Bool)
    (park_mask_threshold : ℝ) (hex_area_m2 : Option (List (String × ℝ))) :
    Except String (List (String × Option ℝ)) :=
  if park_mask_enabled then
    match alookup layers "parks" with
    | none => .ok (pci.map (fun p => (p.1, some p.2)))
    | some parksRaw =>
      match park_coverage_result parksRaw hex_ids hex_area_m2 with
      | .error e => .error e
      | .ok coverage =>
        .ok ((pci.zip coverage).map (fun pq =>
          (pq.1.1, if park_mask_threshold < pq.2.2 then none else some pq.1.2)))
  else .ok (pci.map (fun p => (p.1, some p.2)))

/-- `compute_pci` from `src/indices/pci.py` (lines 38-101).  The layers
argument carries each layer's `raw` Series (the only field `compute_pci`
reads).  The output holds `none` for hexes masked to NaN by the park mask.
Raises (`Except.error`) when the park mask needs hex areas that are not
supplied. -/
def compute_pci (travel_times : List (String × List (String × ℝ)))
    (topo_mass : List (String × ℝ)) (layers : List (String × List (String × ℝ)))
    (betas : List (String × ℝ)) (income : Option (List (String × ℝ)) := none)
    (mode_cost : ℝ := 0) (active_lambda : ℝ := 0.30)
    (park_mask_enabled : Bool := true) (park_mask_threshold : ℝ := 0.90)
    (hex_area_m2 : Option (List (String × ℝ)) := none) :
    Except String (List (String × Option ℝ)) :=
  let hex_ids := topo_mass.map Prod.fst
  let beta := (alookup betas "pci").getD 0.08
  let A := hansen_accessibility travel_times topo_mass beta income mode_cost
  let A_n := normalize_minmax A 100
  let active_score := compute_active_street_score hex_ids layers
  let pci_raw := zipWithSeries (fun a sc => a * (1 + active_lambda * sc)) A_n active_score
  let pci := normalize_minmax pci_raw 100
  apply_park_mask pci hex_ids layers park_mask_enabled park_mask_threshold hex_area_m2

end

/-- A neutral `topo_rules` value used where a concrete one is needed. -/
def defaultTopoRules : TopoRules :=
  { normalize := "none", clip_min := none, clip_max := none, log1p := false }

/-- A concrete baseline scenario for counterexamples and witnesses. -/
def baselineScenario : Scenario :=
  { name := "baseline", description := "", mass_edits := [], network_edits := [],
    weights := [], betas := [], gamma := 1, active_lambda := 0, mode_cost := 0,
    park_mask_enabled := true, park_mask_threshold := 1, interface_lambda := 0 }

/-! ## Helper lemmas -/

@[simp] theorem alookup_nil {α : Type} (k : String) : alookup ([] : List (String × α)) k = none := rfl

@[simp] theorem alookup_cons {α : Type} (p : String × α) (ps : List (String × α)) (k : String) :
    alookup (p :: ps) k = if p.1 = k then some p.2 else alookup ps k := rfl

theorem foldl_min_le_init {α : Type} [LinearOrder α] (xs : List α) (x : α) :
    xs.foldl min x ≤ x := by
  induction xs generalizing x with
  | nil => exact le_refl x
  | cons y ys ih => exact le_trans (ih (min x y)) (min_le_left x y)

theorem foldl_min_le_mem {α : Type} [LinearOrder α] {xs : List α} {a : α} (x : α)
    (ha : a ∈ xs) : xs.foldl min x ≤ a := by
  induction xs generalizing x with
  | nil => cases ha
  | cons y ys ih =>
    rcases List.mem_cons.mp ha with h | h
    · subst h
      exact le_trans (foldl_min_le_init ys (min x a)) (min_le_right x a)
    · exact ih (min x y) h

theorem listMin_le {α : Type} [LinearOrder α] {l : List α} {m a : α}
    (hm : listMin l = some m) (ha : a ∈ l) : m ≤ a := by
  cases l with
  | nil => cases ha
  | cons x xs =>
    simp only [listMin, Option.some.injEq] at hm
    subst hm
    rcases List.mem_cons.mp ha with h | h
    · subst h; exact foldl_min_le_init xs a
    · exact foldl_min_le_mem x h

theorem init_le_foldl_max {α : Type} [LinearOrder α] (xs : List α) (x : α) :
    x ≤ xs.foldl max x := by
  induction xs generalizing x with
  | nil => exact le_refl x
  | cons y ys ih => exact le_trans (le_max_left x y) (ih (max x y))

theorem mem_le_foldl_max {α : Type} [LinearOrder α] {xs : List α} {a : α} (x : α)
    (ha : a ∈ xs) : a ≤ xs.foldl max x := by
  induction xs generalizing x with
  | nil => cases ha
  | cons y ys ih =>
    rcases List.mem_cons.mp ha with h | h
    · subst h
      exact le_trans (le_max_right x a) (init_le_foldl_max ys (max x a))
    · exact ih (max x y) h

theorem le_listMax {α : Type} [LinearOrder α] {l : List α} {m a : α}
    (hm : listMax l = some m) (ha : a ∈ l) : a ≤ m := by
  cases l with
  | nil => cases ha
  | cons x xs =>
    simp only [listMax, Option.some.injEq] at hm
    subst hm
    rcases List.mem_cons.mp ha with h | h
    · subst h; exact init_le_foldl_max xs a
    · exact mem_le_foldl_max x h

theorem listMin_const {α : Type} [LinearOrder α] {l : List α} {c : α}
    (hne : l ≠ []) (hc : ∀ a ∈ l, a = c) : listMin l = some c := by
  cases l with
  | nil => exact absurd rfl hne
  | cons x xs =>
    simp only [listMin, Option.some.injEq]
    have hx : x = c := hc x (List.mem_cons_self x xs)
    subst hx
    induction xs with
    | nil => rfl
    | cons y ys ih =>
      have hy : y = x := hc y (by simp)
      subst hy
      simpa [min_self] using ih (by simp) (fun a ha => hc a (by
        rcases List.mem_cons.mp ha with h | h
        · simp [h]
        · simp [List.mem_cons.mpr (Or.inr h)]))

theorem listMax_const {α : Type} [LinearOrder α] {l : List α} {c : α}
    (hne : l ≠ []) (hc : ∀ a ∈ l, a = c) : listMax l = some c := by
  cases l with
  | nil => exact absurd rfl hne
  | cons x xs =>
    simp only [listMax, Option.some.injEq]
    have hx : x = c := hc x (List.mem_cons_self x xs)
    subst hx
    induction xs with
    | nil => rfl
    | cons y ys ih =>
      have hy : y = x := hc y (by simp)
      subst hy
      simpa [max_self] using ih (by simp) (fun a ha => hc a (by
        rcases List.mem_cons.mp ha with h | h
        · simp [h]
        · simp [List.mem_cons.mpr (Or.inr h)]))


/-! ## Association-list lemmas -/

theorem alookup_map_self {α : Type} (f : String → α) (l : List String) {k : String}
    (hk : k ∈ l) : alookup (l.map (fun h => (h, f h))) k = some (f k) := by
  induction l with
  | nil => cases hk
  | cons x xs ih =>
    by_cases hx : x = k
    · subst hx; simp
    · rcases List.mem_cons.mp hk with h | h
      · exact absurd h.symm hx
      · simpa [hx] using ih h

theorem alookup_map_snd {α β : Type} (g : α → β) (l : List (String × α)) (k : String) :
    alookup (l.map (fun p => (p.1, g p.2))) k = (alookup l k).map g := by
  induction l with
  | nil => rfl
  | cons p ps ih =>
    by_cases hp : p.1 = k
    · simp [hp]
    · simp [hp, ih]

theorem alookup_append_of_some {α : Type} {l1 : List (String × α)} (l2 : List (String × α))
    {k : String} {v : α} (h : alookup l1 k = some v) : alookup (l1 ++ l2) k = some v := by
  induction l1 with
  | nil => cases h
  | cons p ps ih =>
    by_cases hp : p.1 = k
    · simp [hp] at h ⊢; exact h
    · simp [hp] at h ⊢; exact ih h

theorem alookup_append_of_none {α : Type} {l1 : List (String × α)} (l2 : List (String × α))
    {k : String} (h : alookup l1 k = none) : alookup (l1 ++ l2) k = alookup l2 k := by
  induction l1 with
  | nil => rfl
  | cons p ps ih =>
    by_cases hp : p.1 = k
    · simp [hp] at h
    · simp [hp] at h ⊢; exact ih h

theorem alookup_map_const {α β : Type} (l : List (String × α)) (r : β) (k : String) :
    alookup (l.map (fun p => (p.1, r))) k = if k ∈ l.map Prod.fst then some r else none := by
  induction l with
  | nil => rfl
  | cons p ps ih =>
    simp only [List.map_cons, alookup_cons]
    by_cases hp : p.1 = k
    · simp [hp]
    · have hk : ¬k = p.1 := fun h => hp h.symm
      rw [if_neg hp, ih]
      by_cases hin : k ∈ List.map Prod.fst ps
      · rw [if_pos hin, if_pos (List.mem_cons.mpr (Or.inr hin))]
      · rw [if_neg hin, if_neg (fun hcon => hin ((List.mem_cons.mp hcon).resolve_left hk))]

theorem mem_keys_unique {β : Type} {l : List (String × β)} (hnd : (l.map Prod.fst).Nodup)
    {k : String} {a b : β} (ha : (k, a) ∈ l) (hb : (k, b) ∈ l) : a = b := by
  induction l with
  | nil => cases ha
  | cons p ps ih =>
    simp only [List.map_cons, List.nodup_cons] at hnd
    rcases List.mem_cons.mp ha with h1 | h1 <;> rcases List.mem_cons.mp hb with h2 | h2
    · exact congrArg Prod.snd (h1.trans h2.symm)
    · exfalso
      apply hnd.1
      have hk : (k : String) ∈ List.map Prod.fst ps := List.mem_map_of_mem Prod.fst h2
      rw [← h1]
      exact hk
    · exfalso
      apply hnd.1
      have hk : (k : String) ∈ List.map Prod.fst ps := List.mem_map_of_mem Prod.fst h1
      rw [← h2]
      exact hk
    · exact ih hnd.2 h1 h2

/-! ## Claim theorems -/

/-- Claim C10 (confirmed): applying an empty edit list is a no-op —
`apply_mass_edits` with no mass edits returns the input layers reindexed to
`hex_ids` (missing hexes filled with 0) and the input weights unchanged, and
`apply_network_edits` with no network edits returns the base network. -/
theorem c10_empty_edits_noop :
    ∀ (layers : List (String × MassLayer)) (weights : List (String × ℚ))
      (hexIds : List String) (G : NetGraph) (closeTime : ℚ),
      apply_mass_edits layers weights hexIds [] =
        .ok (layers.map (fun p =>
          (p.1, { name := p.2.name, raw := reindex_fill p.2.raw hexIds 0, meta := p.2.meta })),
          weights)
      ∧ apply_network_edits G [] closeTime = .ok G := by
  intro layers weights hexIds G closeTime
  constructor
  · simp only [apply_mass_edits, MassLayer.copy, MassLayer.reindex_to_hexes, List.foldlM_nil]
    rfl
  · simp only [apply_network_edits, List.foldlM_nil]
    rfl

/-- Claim C1, counterexample: two scenarios that differ only in `mass_edits`
derive *different* graph-stage structural keys — the graph key incorporates
the topography key, which incorporates the mass key and hence the mass
edits. -/
theorem c1_counterexample :
    run_graph_key baselineScenario defaultTopoRules
      ≠ run_graph_key
          { baselineScenario with mass_edits := [.removeLayerFromComposite "parks"] }
          defaultTopoRules := by
  simp [run_graph_key, graph_key, topo_key_payload, mass_key_payload, baselineScenario]

/-- Claim C1 (amended): the graph-stage key is derived from the network
edits, gamma and the topography key, and the topography key is derived from
the mass key; consequently two scenarios that differ only in `mass_edits`
derive *different* graph keys and different travel-time keys, so a mass-only
variant does **not** reuse the cached travel-time table. -/
theorem c1_amended_graph_key_depends_on_mass_edits :
    ∀ (s1 s2 : Scenario) (tr : TopoRules) (max_time : ℚ),
      s1.network_edits = s2.network_edits → s1.gamma = s2.gamma →
      s1.mass_edits ≠ s2.mass_edits →
      run_graph_key s1 tr ≠ run_graph_key s2 tr
      ∧ run_travel_times_key s1 tr max_time ≠ run_travel_times_key s2 tr max_time := by
  intro s1 s2 tr max_time hn hg hm
  have hkey : run_graph_key s1 tr ≠ run_graph_key s2 tr := by
    intro h
    simp only [run_graph_key, graph_key, topo_key_payload, mass_key_payload,
      KeyPayload.graphKeyP.injEq, KeyPayload.topoPciP.injEq, KeyPayload.massKeyP.injEq] at h
    exact hm h.2.2.1
  refine ⟨hkey, fun h => hkey ?_⟩
  rw [run_travel_times_key, travel_times_key, run_travel_times_key, travel_times_key] at h
  injection h with hg hmt

/-- Witness for C1's amended claim at concrete scenarios. -/
theorem c1_witness :
    run_graph_key baselineScenario defaultTopoRules
      ≠ run_graph_key
          { baselineScenario with mass_edits := [.removeLayerFromComposite "retail"] }
          defaultTopoRules
    ∧ run_travel_times_key baselineScenario defaultTopoRules 60
      ≠ run_travel_times_key
          { baselineScenario with mass_edits := [.removeLayerFromComposite "retail"] }
          defaultTopoRules 60 :=
  c1_amended_graph_key_depends_on_mass_edits baselineScenario
    { baselineScenario with mass_edits := [.removeLayerFromComposite "retail"] }
    defaultTopoRules 60 rfl rfl (by simp [baselineScenario])

/-- Claim C2 (confirmed): the `Scenario` dataclass defines no `topo_rules`
field, so `_mass_key` — the first statement of `ScenarioRunner.run` that
touches the scenario — raises `AttributeError` for *every* scenario value,
and the run aborts before the mass stage completes; no run against the
shipped `Scenario` type can succeed. -/
theorem c2_every_run_raises_attribute_error :
    ∀ (s : Scenario) (base_layers : List (String × MassLayer))
      (base_weights : List (String × ℚ)) (hex_ids : List String),
      s.pyGetattr "topo_rules" = none
      ∧ mass_key s = .error "AttributeError: Scenario object has no attribute topo_rules"
      ∧ run_mass_stage s base_layers base_weights hex_ids
          = .error "AttributeError: Scenario object has no attribute topo_rules" := by
  intro s base_layers base_weights hex_ids
  have h1 : s.pyGetattr "topo_rules" = none := by
    simp +decide [Scenario.pyGetattr]
  have h2 : mass_key s = .error "AttributeError: Scenario object has no attribute topo_rules" := by
    simp +decide [mass_key, Scenario.pyGetattr]
  exact ⟨h1, h2, by simp [run_mass_stage, h2]⟩

/-- Claim C3 (the code evaluated at the failing input): with duplicate target
ids `["A", "A"]` and the `equal` method, `_redistribute_series_to_targets`
divides the total by the number of *listed* targets (2) but `out.loc[targets]`
assigns each *label* only once, so the accepted output sums to 5 while the
reindexed input sums to 10 — mass is not conserved, contrary to the
function's own docstring ("preserving total mass"). -/
theorem c3_duplicate_targets_lose_mass :
    redistribute_series_to_targets [("A", 10)] ["A", "B"] ["A", "A"] "equal"
      = .ok [("A", 5), ("B", 0)]
    ∧ seriesSum (reindex_fill [("A", (10 : ℚ))] ["A", "B"] 0) = 10
    ∧ seriesSum [("A", (5 : ℚ)), ("B", 0)] = 5
    ∧ (5 : ℚ) ≠ 10 := by
  refine ⟨?_, ?_, ?_, by norm_num⟩
  · simp +decide [redistribute_series_to_targets, reindex_fill, seriesSum, alookup]
    norm_num
  · simp +decide [seriesSum, reindex_fill, alookup]
  · simp [seriesSum]

theorem map_congr_mem {α β : Type} {f g : α → β} {l : List α}
    (h : ∀ a ∈ l, f a = g a) : l.map f = l.map g := by
  induction l with
  | nil => rfl
  | cons x xs ih =>
    simp only [List.map_cons]
    rw [h x (List.mem_cons_self x xs), ih (fun a ha => h a (List.mem_cons.mpr (Or.inr ha)))]

/-- Reindexing to the same index twice is the same as reindexing once. -/
theorem reindex_fill_idem {α : Type} (s : List (String × α)) (hexIds : List String) (fill : α) :
    reindex_fill (reindex_fill s hexIds fill) hexIds fill = reindex_fill s hexIds fill := by
  unfold reindex_fill
  apply map_congr_mem
  intro h hh
  rw [alookup_map_self (fun h => (alookup s h).getD fill) hexIds hh]
  simp

/-- Claim C5 (amended): an edit whose `target_hex_ids` contains no identifier
present in `hex_ids` makes `apply_mass_edits` fail with the `ValueError` the
spec calls `InvalidEditError` — *provided* the layer's reindexed total is
nonzero.  (A zero-total layer returns the all-zero Series before targets are
validated; see the counterexample.) -/
theorem c5_amended_missing_targets_error :
    ∀ (layers : List (String × MassLayer)) (weights : List (String × ℚ))
      (hexIds : List String) (lname : String) (L : MassLayer)
      (targets : List String) (method : String),
      alookup layers lname = some L →
      seriesSum (reindex_fill L.raw hexIds 0) ≠ 0 →
      (∀ t ∈ targets, t ∉ hexIds) →
      apply_mass_edits layers weights hexIds
          [.redistributeLayerToHexes lname targets method]
        = .error "No target_hex_ids are in the provided hex_ids index." := by
  intro layers weights hexIds lname L targets method hL htot hdisj
  have hred : redistribute_series_to_targets (reindex_fill L.raw hexIds 0) hexIds targets method
      = .error "No target_hex_ids are in the provided hex_ids index." := by
    unfold redistribute_series_to_targets
    rw [reindex_fill_idem, if_neg htot]
    have hfil : targets.filter (fun h => h ∈ hexIds) = [] :=
      List.filter_eq_nil_iff.mpr (fun t ht => by simpa using hdisj t ht)
    rw [hfil]
    rfl
  have hL' : alookup (layers.map (fun p => (p.1, (p.2.copy).reindex_to_hexes hexIds))) lname
      = some ((L.copy).reindex_to_hexes hexIds) := by
    rw [alookup_map_snd (fun l => (l.copy).reindex_to_hexes hexIds) layers lname, hL]
    rfl
  unfold apply_mass_edits
  simp only [List.foldlM_cons, List.foldlM_nil, hL']
  rw [show ((L.copy).reindex_to_hexes hexIds).raw = reindex_fill L.raw hexIds 0 from rfl, hred]
  rfl

/-- Witness for C5's amended claim at a concrete nonzero-total layer. -/
theorem c5_witness :
    apply_mass_edits [("parks", { name := "parks", raw := [("A", 1)], meta := [] })] []
        ["A"] [.redistributeLayerToHexes "parks" ["X"] "equal"]
      = .error "No target_hex_ids are in the provided hex_ids index." :=
  c5_amended_missing_targets_error _ _ _ _ { name := "parks", raw := [("A", 1)], meta := [] }
    _ _ (by simp +decide [alookup])
    (by simp +decide [seriesSum, reindex_fill, alookup])
    (by decide)

/-- Claim C5, counterexample: when the layer's total is 0, an edit whose
targets are all absent from `hex_ids` is *accepted without error* — the
all-zero Series is returned before target validation runs. -/
theorem c5_counterexample :
    apply_mass_edits [("parks", { name := "parks", raw := [], meta := [] })] [] ["A"]
        [.redistributeLayerToHexes "parks" ["X"] "equal"]
      = .ok ([("parks", { name := "parks", raw := [("A", 0)], meta := [] })], [])
    ∧ "X" ∉ (["A"] : List String) := by
  constructor
  · simp +decide [apply_mass_edits, redistribute_series_to_targets, reindex_fill, seriesSum,
      MassLayer.copy, MassLayer.reindex_to_hexes, dictSet, alookup]
  · decide

theorem close_one_error (g : NetGraph) (t : List String) (ct : ℚ)
    (h2 : t.length ≠ 2) (h3 : t.length ≠ 3) :
    close_one g t ct = .error "CloseEdges edge tuple must be (u,v) or (u,v,k)." := by
  rcases t with _ | ⟨u, _ | ⟨v, _ | ⟨k, _ | ⟨x, rest⟩⟩⟩⟩
  · rfl
  · rfl
  · exact absurd rfl h2
  · exact absurd rfl h3
  · rfl

theorem close_one_ok (g : NetGraph) (t : List String) (ct : ℚ)
    (h : t.length = 2 ∨ t.length = 3) : ∃ g2, close_one g t ct = .ok g2 := by
  rcases t with _ | ⟨u, _ | ⟨v, _ | ⟨k, _ | ⟨x, rest⟩⟩⟩⟩
  · simp at h
  · simp at h
  · cases he : hasEdgeUV g u v
    · exact ⟨g, by simp [close_one, he]⟩
    · refine ⟨g.map (fun e =>
        if e.u = u && e.v = v then { e with time_min := some ct } else e), ?_⟩
      simp [close_one, he]
  · cases he : hasEdgeUVK g u v k
    · exact ⟨g, by simp [close_one, he]⟩
    · refine ⟨g.map (fun e =>
        if e.u = u && e.v = v && e.key = k then { e with time_min := some ct } else e), ?_⟩
      simp [close_one, he]
  · simp only [List.length_cons] at h
    omega

theorem close_edges_fold_error (G : NetGraph) (tuples : List (List String)) (ct : ℚ)
    (h : ∃ t ∈ tuples, t.length ≠ 2 ∧ t.length ≠ 3) :
    close_edges_fold G tuples ct
      = .error "CloseEdges edge tuple must be (u,v) or (u,v,k)." := by
  induction tuples generalizing G with
  | nil => rcases h with ⟨t, ht, _⟩; cases ht
  | cons t ts ih =>
    unfold close_edges_fold
    simp only [List.foldlM_cons]
    rcases h with ⟨t0, ht0, hbad⟩
    rcases List.mem_cons.mp ht0 with rfl | hmem
    · rw [close_one_error G t0 ct hbad.1 hbad.2]
      rfl
    · by_cases hlen : t.length = 2 ∨ t.length = 3
      · rcases close_one_ok G t ct hlen with ⟨g2, hg2⟩
        rw [hg2]
        exact ih g2 ⟨t0, hmem, hbad⟩
      · push_neg at hlen
        rw [close_one_error G t ct hlen.1 hlen.2]
        rfl

/-- Claim C6 (amended): `apply_network_edits` raises the `ValueError` the
spec calls `InvalidEditError` whenever a `CloseEdges` edit specifies an edge
tuple that is neither `(u, v)` nor `(u, v, key)` — but a well-formed tuple
referencing an edge that is *not present* in the network is silently
skipped, leaving the network unchanged, not an error. -/
theorem c6_amended_close_edges :
    (∀ (G : NetGraph) (tuples : List (List String)) (ct : ℚ),
      (∃ t ∈ tuples, t.length ≠ 2 ∧ t.length ≠ 3) →
      apply_network_edits G [.closeEdges tuples] ct
        = .error "CloseEdges edge tuple must be (u,v) or (u,v,k).")
    ∧ (∀ (G : NetGraph) (u v : String) (ct : ℚ),
      ¬hasEdgeUV G u v = true →
      apply_network_edits G [.closeEdges [[u, v]]] ct = .ok G) := by
  constructor
  · intro G tuples ct h
    unfold apply_network_edits
    simp only [List.foldlM_cons, List.foldlM_nil]
    rw [close_edges_fold_error G tuples ct h]
    rfl
  · intro G u v ct h
    unfold apply_network_edits
    simp only [List.foldlM_cons, List.foldlM_nil]
    unfold close_edges_fold
    simp only [List.foldlM_cons, List.foldlM_nil]
    rw [show close_one G [u, v] ct = if hasEdgeUV G u v = true then
          .ok (G.map (fun e =>
            if e.u = u && e.v = v then { e with time_min := some ct } else e))
        else .ok G from rfl,
      if_neg h]
    rfl

/-- Witness for C6's amended claim: a malformed arity errors, a missing edge
is skipped. -/
theorem c6_witness :
    apply_network_edits [] [.closeEdges [["a"]]] 5
      = .error "CloseEdges edge tuple must be (u,v) or (u,v,k)."
    ∧ apply_network_edits [{ u := "a", v := "b", key := "0", time_min := none, attrs := [] }]
        [.closeEdges [["x", "y"]]] 5
      = .ok [{ u := "a", v := "b", key := "0", time_min := none, attrs := [] }] :=
  ⟨c6_amended_close_edges.1 [] [["a"]] 5 ⟨["a"], by simp, by decide, by decide⟩,
   c6_amended_close_edges.2 _ "x" "y" 5 (by decide)⟩

/-- Claim C6, counterexample: a `CloseEdges` edit referencing an edge that is
not present in the network does not raise — contrary to the claim, the run
is not aborted and the network is returned unchanged. -/
theorem c6_counterexample :
    apply_network_edits [{ u := "a", v := "b", key := "0", time_min := none, attrs := [] }]
        [.closeEdges [["u", "v"]]] 1000000000
      = .ok [{ u := "a", v := "b", key := "0", time_min := none, attrs := [] }]
    ∧ hasEdgeUV [{ u := "a", v := "b", key := "0", time_min := none, attrs := [] }] "u" "v"
        = false := by
  constructor
  · simp +decide [apply_network_edits, close_edges_fold, close_one, hasEdgeUV]
  · decide

theorem mem_foldl_insert (l acc : List String) (x : String) :
    x ∈ l.foldl (fun acc y => if y ∈ acc then acc else acc ++ [y]) acc ↔ x ∈ acc ∨ x ∈ l := by
  induction l generalizing acc with
  | nil => simp
  | cons y ys ih =>
    simp only [List.foldl_cons]
    by_cases hy : y ∈ acc
    · rw [if_pos hy, ih]
      constructor
      · rintro (h | h)
        · exact Or.inl h
        · exact Or.inr (List.mem_cons.mpr (Or.inr h))
      · rintro (h | h)
        · exact Or.inl h
        · rcases List.mem_cons.mp h with rfl | h2
          · exact Or.inl hy
          · exact Or.inr h2
    · rw [if_neg hy, ih]
      simp only [List.mem_append, List.mem_singleton, List.mem_cons]
      tauto

theorem nodup_foldl_insert (l : List String) (acc : List String) (h : acc.Nodup) :
    (l.foldl (fun acc y => if y ∈ acc then acc else acc ++ [y]) acc).Nodup := by
  induction l generalizing acc with
  | nil => simpa
  | cons y ys ih =>
    simp only [List.foldl_cons]
    by_cases hy : y ∈ acc
    · rw [if_pos hy]
      exact ih acc h
    · rw [if_neg hy]
      refine ih _ (List.Nodup.append h (List.nodup_singleton y) ?_)
      intro a ha hay
      rcases List.mem_singleton.mp hay with rfl
      exact hy ha

theorem first_occurrences_nodup (l : List String) : (first_occurrences l).Nodup :=
  nodup_foldl_insert l [] List.nodup_nil

theorem mem_first_occurrences (l : List String) (x : String) :
    x ∈ first_occurrences l ↔ x ∈ l := by
  rw [first_occurrences, mem_foldl_insert]
  simp

theorem tt_chunk_lookup_ne (dij : String → Option (List (String × ℚ)))
    (h2n : List (String × String)) (hnd : (h2n.map Prod.fst).Nodup) {h n n' : String}
    (hm : (h, n) ∈ h2n) (hne : n' ≠ n) : alookup (tt_chunk dij h2n n') h = none := by
  unfold tt_chunk
  cases hd : dij n' with
  | none => rfl
  | some lengths =>
    rw [alookup_map_const, if_neg]
    intro hmem
    rcases List.mem_map.mp hmem with ⟨p, hp, hp1⟩
    rcases List.mem_filter.mp hp with ⟨hpin, hp2⟩
    simp only [decide_eq_true_eq] at hp2
    have hpe : p = (h, n') := by
      cases p
      simp only [Prod.mk.injEq]
      exact ⟨hp1, hp2⟩
    rw [hpe] at hpin
    exact hne (mem_keys_unique hnd hpin hm)

theorem tt_chunk_lookup_eq (dij : String → Option (List (String × ℚ)))
    (h2n : List (String × String)) {h n : String} (hm : (h, n) ∈ h2n) :
    alookup (tt_chunk dij h2n n) h
      = (dij n).map (fun lengths =>
          h2n.filterMap (fun q => (alookup lengths q.2).map (fun t => (q.1, t)))) := by
  unfold tt_chunk
  cases hd : dij n with
  | none => rfl
  | some lengths =>
    simp only [Option.map_some']
    rw [alookup_map_const, if_pos]
    exact List.mem_map.mpr ⟨(h, n), List.mem_filter.mpr ⟨hm, by simp⟩, rfl⟩

theorem alookup_flatMap_none {β : Type} (f : String → List (String × β)) (ns : List String)
    (k : String) (h : ∀ n ∈ ns, alookup (f n) k = none) : alookup (ns.flatMap f) k = none := by
  induction ns with
  | nil => rfl
  | cons n ns ih =>
    rw [List.flatMap_cons, alookup_append_of_none _ (h n (List.mem_cons_self n ns))]
    exact ih (fun m hm => h m (List.mem_cons.mpr (Or.inr hm)))

/-- Under unique hex keys, the row of hex `h` in the travel-time table is
exactly the (shared) row of its representative node's single search — and is
absent when that search failed. -/
theorem tt_lookup (dij : String → Option (List (String × ℚ)))
    (h2n : List (String × String)) (hnd : (h2n.map Prod.fst).Nodup) {h n : String}
    (hm : (h, n) ∈ h2n) :
    alookup (compute_hex_travel_times dij h2n) h
      = (dij n).map (fun lengths =>
          h2n.filterMap (fun q => (alookup lengths q.2).map (fun t => (q.1, t)))) := by
  have hnmem : n ∈ dijkstra_sources h2n := by
    rw [dijkstra_sources, mem_first_occurrences]
    exact List.mem_map_of_mem Prod.snd hm
  have hnd2 : (dijkstra_sources h2n).Nodup := first_occurrences_nodup _
  rw [compute_hex_travel_times]
  revert hnmem hnd2
  generalize dijkstra_sources h2n = ns
  induction ns with
  | nil =>
    intro hnmem _
    cases hnmem
  | cons m ms ih =>
    intro hnmem hnd2
    rw [List.flatMap_cons]
    rcases List.nodup_cons.mp hnd2 with ⟨hmnotin, hms⟩
    by_cases hmn : m = n
    · subst hmn
      cases hd : dij m with
      | none =>
        have h1 : alookup (tt_chunk dij h2n m) h = none := by
          rw [tt_chunk_lookup_eq dij h2n hm, hd]
          rfl
        rw [alookup_append_of_none _ h1]
        simp only [Option.map_none']
        apply alookup_flatMap_none
        intro n' hn'
        exact tt_chunk_lookup_ne dij h2n hnd hm (fun hEq => hmnotin (hEq ▸ hn'))
      | some lengths =>
        have h1 : alookup (tt_chunk dij h2n m) h
            = some (h2n.filterMap (fun q => (alookup lengths q.2).map (fun t => (q.1, t)))) := by
          rw [tt_chunk_lookup_eq dij h2n hm, hd]
          rfl
        rw [alookup_append_of_some _ h1]
        rfl
    · have h1 : alookup (tt_chunk dij h2n m) h = none :=
        tt_chunk_lookup_ne dij h2n hnd hm hmn
      rw [alookup_append_of_none _ h1]
      exact ih ((List.mem_cons.mp hnmem).resolve_left (fun hEq => hmn hEq.symm)) hms

/-- Claim C7 (confirmed): `compute_hex_travel_times` runs one shortest-path
search per *distinct* representative node — the searched-source list is
duplicate-free and covers exactly the represented nodes — so any two hexes
mapped by `hex_to_node` to the same node receive equal result rows; and a
source node whose search fails contributes no rows for its hexes (their keys
are absent from the table) rather than rows of infinities. -/
theorem c7_travel_time_searches_and_rows :
    ∀ (dij : String → Option (List (String × ℚ))) (h2n : List (String × String)),
      (h2n.map Prod.fst).Nodup →
      (dijkstra_sources h2n).Nodup
      ∧ (∀ n, n ∈ dijkstra_sources h2n ↔ n ∈ h2n.map Prod.snd)
      ∧ (∀ h1 h2 n, (h1, n) ∈ h2n → (h2, n) ∈ h2n →
          alookup (compute_hex_travel_times dij h2n) h1
            = alookup (compute_hex_travel_times dij h2n) h2)
      ∧ (∀ h n, (h, n) ∈ h2n → dij n = none →
          alookup (compute_hex_travel_times dij h2n) h = none) := by
  intro dij h2n hnd
  refine ⟨first_occurrences_nodup _, fun n => mem_first_occurrences _ n, ?_, ?_⟩
  · intro h1 h2 n hm1 hm2
    rw [tt_lookup dij h2n hnd hm1, tt_lookup dij h2n hnd hm2]
  · intro h n hm hfail
    rw [tt_lookup dij h2n hnd hm, hfail]
    rfl

/-- Witness for C7 at a concrete three-hex, two-node assignment where the
second node's search fails. -/
theorem c7_witness :
    alookup (compute_hex_travel_times
        (fun n => if n = "n1" then some [("n1", (0 : ℚ))] else none)
        [("h1", "n1"), ("h2", "n1"), ("h3", "n2")]) "h1"
      = alookup (compute_hex_travel_times
        (fun n => if n = "n1" then some [("n1", (0 : ℚ))] else none)
        [("h1", "n1"), ("h2", "n1"), ("h3", "n2")]) "h2"
    ∧ alookup (compute_hex_travel_times
        (fun n => if n = "n1" then some [("n1", (0 : ℚ))] else none)
        [("h1", "n1"), ("h2", "n1"), ("h3", "n2")]) "h3" = none := by
  have H := c7_travel_time_searches_and_rows
      (fun n => if n = "n1" then some [("n1", (0 : ℚ))] else none)
      [("h1", "n1"), ("h2", "n1"), ("h3", "n2")] (by decide)
  exact ⟨H.2.2.1 "h1" "h2" "n1" (by decide) (by decide),
         H.2.2.2 "h3" "n2" (by decide) (by simp)⟩

theorem normalize_01_lookup (topo : List (String × ℚ)) (h : String) :
    (alookup (normalize_01 topo) h).getD 0
      = match alookup topo h, listMin (topo.map Prod.snd), listMax (topo.map Prod.snd) with
        | some v, some mn, some mx => if mn < mx then (v - mn) / (mx - mn) else 0
        | _, _, _ => 0 := by
  unfold normalize_01
  cases hmin : listMin (topo.map Prod.snd) with
  | none =>
    cases hmax : listMax (topo.map Prod.snd) with
    | none =>
      cases hv : alookup topo h <;>
        simp [alookup_map_snd (fun _ => (0 : ℚ)) topo h, hv]
    | some mx =>
      cases hv : alookup topo h <;>
        simp [alookup_map_snd (fun _ => (0 : ℚ)) topo h, hv]
  | some mn =>
    cases hmax : listMax (topo.map Prod.snd) with
    | none =>
      cases hv : alookup topo h <;>
        simp [alookup_map_snd (fun _ => (0 : ℚ)) topo h, hv]
    | some mx =>
      by_cases hlt : mn < mx
      · cases hv : alookup topo h <;>
          simp [alookup_map_snd (fun v => (v - mn) / (mx - mn)) topo h, hv, hlt]
      · cases hv : alookup topo h <;>
          simp [alookup_map_snd (fun _ => (0 : ℚ)) topo h, hv, hlt]

theorem code_node_score_eq_spec (topo : List (String × ℚ)) (n2h : List (String × String))
    (node : String) :
    (match alookup n2h node with
     | none => (0 : ℚ)
     | some hu => (alookup (normalize_01 topo) hu).getD 0)
      = spec_node_score topo n2h node := by
  unfold spec_node_score
  cases alookup n2h node with
  | none => rfl
  | some hu =>
    show (alookup (normalize_01 topo) hu).getD 0
      = match alookup topo hu, listMin (topo.map Prod.snd), listMax (topo.map Prod.snd) with
        | some v, some mn, some mx => if mn < mx then (v - mn) / (mx - mn) else 0
        | _, _, _ => 0
    exact normalize_01_lookup topo hu

theorem topo_edge_update_none (topo : List (String × ℚ)) (n2h : List (String × String))
    (gamma : ℚ) (e : NetEdge) (he : e.time_min = none) :
    topo_edge_update topo n2h gamma e = e := by
  unfold topo_edge_update
  rw [he]

theorem topo_edge_update_some (topo : List (String × ℚ)) (n2h : List (String × String))
    (gamma : ℚ) (e : NetEdge) (t : ℚ) (he : e.time_min = some t) :
    topo_edge_update topo n2h gamma e
      = { e with time_min := some (t * (1 + gamma * (1/2) *
            (spec_node_score topo n2h e.u + spec_node_score topo n2h e.v))) } := by
  unfold topo_edge_update
  rw [he, ← code_node_score_eq_spec topo n2h e.u, ← code_node_score_eq_spec topo n2h e.v]

theorem mem_zip_map_self {α β : Type} (f : α → β) (l : List α) {pq : α × β}
    (hpq : pq ∈ l.zip (l.map f)) : pq.2 = f pq.1 := by
  induction l with
  | nil => cases hpq
  | cons x xs ih =>
    simp only [List.map_cons, List.zip_cons_cons] at hpq
    rcases List.mem_cons.mp hpq with h | h
    · subst h
      rfl
    · exact ih h

/-- Claim C8 (confirmed): `build_topo_weighted_graph` keeps the edge list's
shape and sets, for every edge carrying a `time_min`, the new `time_min` to
`old * (1 + gamma * 0.5 * (mu + mv))`, where `mu`, `mv` are the
min-max-normalized topography scores of the endpoints' hexes
(`spec_node_score`, stated from the Series' min and max) and are 0 when the
endpoint's node is not mapped to a hex; edges without `time_min` are left
untouched. -/
theorem c8_topo_weighted_edge_times :
    ∀ (G : NetGraph) (topo : List (String × ℚ)) (n2h : List (String × String)) (gamma : ℚ),
      (build_topo_weighted_graph G topo n2h gamma).length = G.length
      ∧ ∀ pq : NetEdge × NetEdge, pq ∈ G.zip (build_topo_weighted_graph G topo n2h gamma) →
        (pq.1.time_min = none → pq.2 = pq.1)
        ∧ ∀ t, pq.1.time_min = some t →
          pq.2.u = pq.1.u ∧ pq.2.v = pq.1.v ∧ pq.2.key = pq.1.key ∧ pq.2.attrs = pq.1.attrs
          ∧ pq.2.time_min = some (t * (1 + gamma * (1/2) *
              (spec_node_score topo n2h pq.1.u + spec_node_score topo n2h pq.1.v))) := by
  intro G topo n2h gamma
  constructor
  · simp [build_topo_weighted_graph]
  · intro pq hpq
    have h2 : pq.2 = topo_edge_update topo n2h gamma pq.1 :=
      mem_zip_map_self (topo_edge_update topo n2h gamma) G hpq
    constructor
    · intro hnone
      rw [h2, topo_edge_update_none topo n2h gamma pq.1 hnone]
    · intro t ht
      rw [h2, topo_edge_update_some topo n2h gamma pq.1 t ht]
      exact ⟨rfl, rfl, rfl, rfl, rfl⟩

/-- Witness for C8 on a one-edge graph with both endpoints mapped: the
updated time follows the claimed formula, and the normalized score of the
max-topography hex is 1. -/
theorem c8_witness :
    (topo_edge_update [("hu", 0), ("hv", 1)] [("u", "hu"), ("v", "hv")] 2
        { u := "u", v := "v", key := "0", time_min := some 10, attrs := [] }).time_min
      = some (10 * (1 + 2 * (1/2) *
          (spec_node_score [("hu", 0), ("hv", 1)] [("u", "hu"), ("v", "hv")] "u"
            + spec_node_score [("hu", 0), ("hv", 1)] [("u", "hu"), ("v", "hv")] "v"))) := by
  have H := (c8_topo_weighted_edge_times
      [{ u := "u", v := "v", key := "0", time_min := some 10, attrs := [] }]
      [("hu", 0), ("hv", 1)] [("u", "hu"), ("v", "hv")] 2).2
      ({ u := "u", v := "v", key := "0", time_min := some 10, attrs := [] },
        topo_edge_update [("hu", 0), ("hv", 1)] [("u", "hu"), ("v", "hv")] 2
          { u := "u", v := "v", key := "0", time_min := some 10, attrs := [] })
      (by simp [build_topo_weighted_graph])
  exact (H.2 10 rfl).2.2.2.2

theorem sum_map_ite_pos (row : List (String × ℝ)) (m : String → ℝ) (g : String × ℝ → ℝ) :
    (row.map (fun dt => if m dt.1 ≤ 0 then 0 else g dt)).sum
      = ((row.filter (fun dt => 0 < m dt.1)).map g).sum := by
  induction row with
  | nil => rfl
  | cons dt row ih =>
    rw [List.map_cons, List.sum_cons, List.filter_cons]
    by_cases hm : m dt.1 ≤ 0
    · rw [if_pos hm, ih, if_neg (by simpa using hm), zero_add]
    · rw [if_neg hm, ih, if_pos (by simpa using lt_of_not_le hm), List.map_cons, List.sum_cons]

/-- Claim C4 (amended): for every origin hex `i` of the output index that has
a travel-time row, `hansen_accessibility` returns the sum over destinations
`j` present in that row **whose mass is strictly positive** of
`mass_j * exp(-beta * (t_ij + penalty_i))`; destinations with mass `≤ 0`
(in particular every absent destination and every zero mass) contribute
nothing, so for nonnegative masses this agrees with the claimed unrestricted
sum. -/
theorem c4_amended_hansen_positive_mass_sum :
    ∀ (travel_times : List (String × List (String × ℝ))) (dest_mass : List (String × ℝ))
      (beta : ℝ) (income : Option (List (String × ℝ))) (mode_cost fw : ℝ)
      (origin : String) (row : List (String × ℝ)),
      origin ∈ dest_mass.map Prod.fst →
      alookup travel_times origin = some row →
      alookup (hansen_accessibility travel_times dest_mass beta income mode_cost fw) origin
        = some (((row.filter (fun dt => 0 < (alookup dest_mass dt.1).getD 0)).map
            (fun dt => ((alookup dest_mass dt.1).getD 0)
              * Real.exp (-beta * (dt.2 + hansen_penalty income mode_cost fw origin)))).sum) := by
  intro tt dm beta income mc fw origin row hmem hrow
  unfold hansen_accessibility
  rw [alookup_map_self (fun o => hansen_row tt dm beta income mc fw o) (dm.map Prod.fst) hmem]
  congr 1
  unfold hansen_row
  rw [hrow]
  cases row with
  | nil => simp
  | cons d ds =>
    show (if (d :: ds).isEmpty = true then (0 : ℝ) else
        (List.map (fun dt =>
            let m := (alookup dm dt.1).getD 0
            if m ≤ 0 then 0 else m * Real.exp (-beta * (dt.2 + hansen_penalty income mc fw origin)))
          (d :: ds)).sum)
      = _
    rw [if_neg (by simp)]
    exact sum_map_ite_pos (d :: ds) (fun k => (alookup dm k).getD 0) _

/-- Witness for C4's amended claim at the spec's 3-hex example: at origin `B`
only `A`'s mass (100) is positive, so the value is `100 * exp(-0.1 * 5)`. -/
theorem c4_witness :
    alookup (hansen_accessibility
        [("A", [("A", 0), ("B", 5), ("C", 10)]),
         ("B", [("A", 5), ("B", 0), ("C", 15)]),
         ("C", [("A", 10), ("C", 0)])]
        [("A", 100), ("B", 0), ("C", 0)] (1/10) none 0 25) "B"
      = some (100 * Real.exp (-(1/2))) := by
  have H := c4_amended_hansen_positive_mass_sum
      [("A", [("A", 0), ("B", 5), ("C", 10)]),
       ("B", [("A", 5), ("B", 0), ("C", 15)]),
       ("C", [("A", 10), ("C", 0)])]
      [("A", 100), ("B", 0), ("C", 0)] (1/10) none 0 25 "B" [("A", 5), ("B", 0), ("C", 15)]
      (by simp) (by simp +decide [alookup])
  rw [H]
  norm_num +decide [alookup, hansen_penalty, List.filter_cons, List.sum_cons, List.sum_nil]

/-- Claim C4, counterexample: with a negative destination mass the code skips
the destination (`if m <= 0.0: continue`) and returns 0, while the claimed
unrestricted sum over all destinations present in the row evaluates to -1. -/
theorem c4_counterexample :
    alookup (hansen_accessibility [("A", [("A", 0)])] [("A", (-1 : ℝ))] 1 none 0 25) "A"
      = some 0
    ∧ hansen_claimed_row_sum [("A", (0 : ℝ))] [("A", (-1 : ℝ))] 1 0 = -1
    ∧ (0 : ℝ) ≠ -1 := by
  refine ⟨?_, ?_, by norm_num⟩
  · unfold hansen_accessibility hansen_row
    norm_num [alookup]
  · unfold hansen_claimed_row_sum
    norm_num [alookup, Real.exp_zero]

theorem normalize_minmax_bounds {s : List (String × ℝ)} {scale : ℝ} (hs : 0 ≤ scale) :
    ∀ p ∈ normalize_minmax s scale, 0 ≤ p.2 ∧ p.2 ≤ scale := by
  intro p hp
  unfold normalize_minmax at hp
  split at hp
  next mn mx hmin hmax =>
    split at hp
    · next hlt =>
      rcases List.mem_map.mp hp with ⟨q, hq, rfl⟩
      have h1 : mn ≤ q.2 := listMin_le hmin (List.mem_map_of_mem Prod.snd hq)
      have h2 : q.2 ≤ mx := le_listMax hmax (List.mem_map_of_mem Prod.snd hq)
      have hden : (0 : ℝ) < mx - mn := by linarith
      constructor
      · exact mul_nonneg (div_nonneg (by linarith) (le_of_lt hden)) hs
      · have hle1 : (q.2 - mn) / (mx - mn) ≤ 1 := by
          rw [div_le_one hden]
          linarith
        calc (q.2 - mn) / (mx - mn) * scale
              ≤ 1 * scale := mul_le_mul_of_nonneg_right hle1 hs
          _ = scale := one_mul scale
    · next hlt =>
      rcases List.mem_map.mp hp with ⟨q, hq, rfl⟩
      exact ⟨by show (0 : ℝ) ≤ scale / 2; linarith, by show scale / 2 ≤ scale; linarith⟩
  next h1 h2 =>
    rcases List.mem_map.mp hp with ⟨q, hq, rfl⟩
    exact ⟨by show (0 : ℝ) ≤ scale / 2; linarith, by show scale / 2 ≤ scale; linarith⟩

theorem normalize_minmax_const (s : List (String × ℝ)) (scale c : ℝ)
    (hc : ∀ p ∈ s, p.2 = c) :
    normalize_minmax s scale = s.map (fun p => (p.1, scale / 2)) := by
  cases s with
  | nil => rfl
  | cons q qs =>
    have hne : ((q :: qs).map Prod.snd) ≠ [] := by simp
    have hall : ∀ a ∈ (q :: qs).map Prod.snd, a = c := by
      intro a ha
      rcases List.mem_map.mp ha with ⟨p, hp, rfl⟩
      exact hc p hp
    unfold normalize_minmax
    simp only [listMin_const hne hall, listMax_const hne hall]
    rw [if_neg (lt_irrefl c)]

/-- The BCI output of `compute_bci` is a min-max normalization to scale 100
of some raw combination Series. -/
theorem compute_bci_BCI_norm (tt : List (String × List (String × ℝ)))
    (pop inc lab : List (String × ℝ)) (betas : List (String × ℝ))
    (w : Option (List (String × ℝ))) (comb : CombineMode)
    (iface : Option (List (String × ℝ))) (il : ℝ) :
    ∃ raw, (compute_bci tt pop inc lab betas w comb iface il).BCI
      = normalize_minmax raw 100 :=
  ⟨_, rfl⟩

/-- `compute_pci` is the park mask applied to a min-max normalization to
scale 100 of some raw Series. -/
theorem compute_pci_as_mask (tt : List (String × List (String × ℝ)))
    (tm : List (String × ℝ)) (layers : List (String × List (String × ℝ)))
    (betas : List (String × ℝ)) (inc : Option (List (String × ℝ))) (mc al : ℝ)
    (pme : Bool) (pmt : ℝ) (ha : Option (List (String × ℝ))) :
    ∃ raw, compute_pci tt tm layers betas inc mc al pme pmt ha
      = apply_park_mask (normalize_minmax raw 100) (tm.map Prod.fst) layers pme pmt ha :=
  ⟨_, rfl⟩

/-- Every defined entry the park mask emits is a value of the input Series. -/
theorem apply_park_mask_entries {pci : List (String × ℝ)} {hex_ids : List String}
    {layers : List (String × List (String × ℝ))} {pme : Bool} {pmt : ℝ}
    {ha : Option (List (String × ℝ))} {out : List (String × Option ℝ)}
    (hok : apply_park_mask pci hex_ids layers pme pmt ha = .ok out) :
    ∀ p ∈ out, ∀ v, p.2 = some v → ∃ q ∈ pci, q.2 = v := by
  have hmap : ∀ (hout : pci.map (fun p => (p.1, some p.2)) = out),
      ∀ p ∈ out, ∀ v, p.2 = some v → ∃ q ∈ pci, q.2 = v := by
    intro hout p hp v hv
    rw [← hout] at hp
    rcases List.mem_map.mp hp with ⟨q, hq, rfl⟩
    simp only [Option.some.injEq] at hv
    exact ⟨q, hq, hv⟩
  unfold apply_park_mask at hok
  split at hok
  · split at hok
    · exact hmap (Except.ok.inj hok)
    · next parksRaw hparks =>
      cases hcov : park_coverage_result parksRaw hex_ids ha with
      | error e =>
        rw [hcov] at hok
        cases hok
      | ok coverage =>
        rw [hcov] at hok
        have hout := Except.ok.inj hok
        intro p hp v hv
        rw [← hout] at hp
        rcases List.mem_map.mp hp with ⟨pq, hpq, rfl⟩
        have h1 : pq.1 ∈ pci := (List.of_mem_zip hpq).1
        by_cases hmask : pmt < pq.2.2
        · rw [if_pos hmask] at hv
          cases hv
        · rw [if_neg hmask] at hv
          simp only [Option.some.injEq] at hv
          exact ⟨pq.1, h1, hv⟩
  · exact hmap (Except.ok.inj hok)

/-- Claim C9 (confirmed): every entry of the BCI output and every defined
(non-masked) entry of the PCI output lies in `[0, 100]`, and when all values
entering the final min-max normalization are equal the output is the
constant `scale / 2` (50 for scale 100) at every hex. -/
theorem c9_pci_bci_bounds :
    (∀ (tt : List (String × List (String × ℝ))) (pop inc lab betas : List (String × ℝ))
       (w : Option (List (String × ℝ))) (comb : CombineMode)
       (iface : Option (List (String × ℝ))) (il : ℝ),
      ∀ p ∈ (compute_bci tt pop inc lab betas w comb iface il).BCI, 0 ≤ p.2 ∧ p.2 ≤ 100)
    ∧ (∀ (tt : List (String × List (String × ℝ))) (tm : List (String × ℝ))
         (layers : List (String × List (String × ℝ))) (betas : List (String × ℝ))
         (inc : Option (List (String × ℝ))) (mc al : ℝ) (pme : Bool) (pmt : ℝ)
         (ha : Option (List (String × ℝ))) (out : List (String × Option ℝ)),
      compute_pci tt tm layers betas inc mc al pme pmt ha = .ok out →
      ∀ p ∈ out, ∀ v, p.2 = some v → 0 ≤ v ∧ v ≤ 100)
    ∧ (∀ (s : List (String × ℝ)) (scale c : ℝ), (∀ p ∈ s, p.2 = c) →
      normalize_minmax s scale = s.map (fun p => (p.1, scale / 2))) := by
  refine ⟨?_, ?_, normalize_minmax_const⟩
  · intro tt pop inc lab betas w comb iface il p hp
    obtain ⟨raw, hraw⟩ := compute_bci_BCI_norm tt pop inc lab betas w comb iface il
    rw [hraw] at hp
    exact normalize_minmax_bounds (by norm_num) p hp
  · intro tt tm layers betas inc mc al pme pmt ha out hok p hp v hv
    obtain ⟨raw, hraw⟩ := compute_pci_as_mask tt tm layers betas inc mc al pme pmt ha
    rw [hraw] at hok
    obtain ⟨q, hq, rfl⟩ := apply_park_mask_entries hok p hp v hv
    exact normalize_minmax_bounds (by norm_num) q hq

/-- Witness for C9 at concrete one-hex inputs with an empty travel-time
table: the BCI entry and the defined PCI entry are both 50 and in bounds,
and a constant Series normalizes to `scale / 2` everywhere. -/
theorem c9_witness :
    (("A", (50 : ℝ)) ∈ (compute_bci [] [("A", (1 : ℝ))] [("A", 1)] [("A", 1)] []
        none .weight_free none 0).BCI
      ∧ 0 ≤ (50 : ℝ) ∧ (50 : ℝ) ≤ 100)
    ∧ (compute_pci [] [("A", (1 : ℝ))] [] [] none 0 (3/10) true (9/10) none
        = .ok [("A", some 50)]
      ∧ 0 ≤ (50 : ℝ) ∧ (50 : ℝ) ≤ 100)
    ∧ normalize_minmax [("A", (3 : ℝ))] 100
        = [("A", (3 : ℝ))].map (fun p => (p.1, (100 : ℝ) / 2)) := by
  have hbci : (compute_bci [] [("A", (1 : ℝ))] [("A", 1)] [("A", 1)] []
      none .weight_free none 0).BCI = [("A", 50)] := by
    simp +decide [compute_bci, compute_bci_masses, hansen_accessibility, hansen_row, alookup,
      normalize_div_max, zipWithSeries, normalize_minmax, listMax, listMin]
    norm_num
  have hpci : compute_pci [] [("A", (1 : ℝ))] [] [] none 0 (3/10) true (9/10) none
      = .ok [("A", some 50)] := by
    simp +decide [compute_pci, hansen_accessibility, hansen_row, alookup, normalize_minmax,
      compute_active_street_score, rank_pct, zipWithSeries, listMax, listMin, apply_park_mask,
      List.filter_cons]
    norm_num
  have hmem : ("A", (50 : ℝ)) ∈ (compute_bci [] [("A", (1 : ℝ))] [("A", 1)] [("A", 1)] []
      none .weight_free none 0).BCI := by
    rw [hbci]
    exact List.mem_singleton.mpr rfl
  refine ⟨⟨hmem, ?_⟩, ⟨hpci, ?_⟩, ?_⟩
  · exact c9_pci_bci_bounds.1 [] [("A", 1)] [("A", 1)] [("A", 1)] []
      none .weight_free none 0 ("A", 50) hmem
  · exact c9_pci_bci_bounds.2.1 [] [("A", 1)] [] [] none 0 (3/10) true (9/10) none
      [("A", some 50)] hpci ("A", some 50) (List.mem_singleton.mpr rfl) 50 rfl
  · exact c9_pci_bci_bounds.2.2 [("A", 3)] 100 3 (by
      intro p hp
      rcases List.mem_singleton.mp hp with rfl
      rfl)
